import Mathlib

/-!
Verification development for the ACI containers provisioning pipeline
(`provision/aci-containers-provision.py`).

The Python data and control flow is shallow-embedded:
* Python values (scalars, lists, dicts) become the inductive `Value`;
  dicts are association lists with unique keys (Python dicts cannot hold
  duplicate keys, so well-formedness shows up as `nodupKeys`/`wf`
  hypotheses where a proof needs it).
* fallible Python code (raising `KeyError`, `AttributeError`,
  `struct.error`, ...) becomes `Option`/`Except Unit`.
* machine integers are `Nat` with explicit bounds (`< 2 ^ 32`) where the
  source relies on 32-bit width.
* the fabric controller (APIC) client is an external collaborator; it is
  modelled as a record of oracles (`Apic`) whose calls may fail.
-/

/-- Python values as they appear in the configuration tree: scalars,
sequences, and string-keyed mappings. -/
inductive Value where
  | vNone : Value
  | vBool : Bool → Value
  | vInt : Int → Value
  | vStr : String → Value
  | vList : List Value → Value
  | vDict : List (String × Value) → Value

/-- Python truthiness of a value (`bool(x)`): `None`, `False`, `0`, empty
string, empty list and empty dict are falsy. -/
def truthy : Value → Bool
  | .vNone => false
  | .vBool b => b
  | .vInt n => n != 0
  | .vStr s => s != ""
  | .vList l => !l.isEmpty
  | .vDict l => !l.isEmpty

/-- Dictionary lookup (`d.get(k)` / `k in d`): first matching key. -/
def getKey : List (String × Value) → String → Option Value
  | [], _ => none
  | (k', v) :: rest, k => if k' = k then some v else getKey rest k

/-- Dictionary update (`d[k] = v`): replace the value at an existing key in
place, otherwise add the binding at the end. -/
def setKey : List (String × Value) → String → Value → List (String × Value)
  | [], k, v => [(k, v)]
  | (k', v') :: rest, k, v =>
    if k' = k then (k, v) :: rest else (k', v') :: setKey rest k v

/-- Whether a value is a mapping (`isinstance(x, dict)`). -/
def isDict : Value → Bool
  | .vDict _ => true
  | _ => false

/-- Chained subscription `config[k1][k2]...` — a missing key (`KeyError`) or
subscripting a non-dict (`TypeError`) raises, modelled by `Except.error`. -/
def getPath : Value → List String → Except Unit Value
  | v, [] => .ok v
  | .vDict l, k :: rest =>
    match getKey l k with
    | some v => getPath v rest
    | none => .error ()
  | _, _ :: _ => .error ()

/-- String coercion used where the source immediately applies `str` methods
or `+` concatenation to the value; any other type raises there. -/
def asStr : Value → Except Unit String
  | .vStr s => .ok s
  | _ => .error ()

/-- Lift an `Option` into `Except Unit` (an absent result raises). -/
def liftO : Option α → Except Unit α
  | some a => .ok a
  | none => .error ()

/-! ### CIDR deriver (`cidr_split`, source lines 119-128)

Strings are handled through their character lists.  `ip2int`/`int2ip`
model `socket.inet_aton`/`inet_ntoa` composed with `struct` packing on
standard decimal dotted-quads (the domain the spec's CIDR contract is
stated for). -/

/-- Split a character list at every occurrence of the separator
(Python `str.split(sep)`); always returns at least one piece. -/
def splitOnChar (sep : Char) : List Char → List (List Char)
  | [] => [[]]
  | c :: rest =>
    match splitOnChar sep rest with
    | [] => [[]]
    | piece :: pieces =>
      if c = sep then [] :: piece :: pieces else (c :: piece) :: pieces

/-- Decimal digit value of a character, if it is a digit. -/
def digitVal (c : Char) : Option Nat :=
  if 48 ≤ c.toNat ∧ c.toNat ≤ 57 then some (c.toNat - 48) else none

/-- Accumulator loop of decimal parsing. -/
def parseNatAux : List Char → Nat → Option Nat
  | [], acc => some acc
  | c :: rest, acc =>
    match digitVal c with
    | some d => parseNatAux rest (acc * 10 + d)
    | none => none

/-- Python `int(s)` on a plain, non-empty decimal digit string;
anything else raises `ValueError` (modelled as `none`). -/
def parseNat : List Char → Option Nat
  | [] => none
  | c :: rest => parseNatAux (c :: rest) 0

/-- Dotted-quad string to 32-bit integer (`struct.unpack` of
`socket.inet_aton`), for decimal `A.B.C.D` components. -/
def ip2int (l : List Char) : Option Nat :=
  match splitOnChar '.' l with
  | [a, b, c, d] =>
    match parseNat a, parseNat b, parseNat c, parseNat d with
    | some av, some bv, some cv, some dv =>
      if av < 256 ∧ bv < 256 ∧ cv < 256 ∧ dv < 256 then
        some (av * 16777216 + bv * 65536 + cv * 256 + dv)
      else none
    | _, _, _, _ => none
  | _ => none

/-- Decimal digits of one octet (a number below 256). -/
def octChars (n : Nat) : List Char :=
  if n < 10 then [Char.ofNat (48 + n)]
  else if n < 100 then [Char.ofNat (48 + n / 10), Char.ofNat (48 + n % 10)]
  else [Char.ofNat (48 + n / 100), Char.ofNat (48 + n / 10 % 10), Char.ofNat (48 + n % 10)]

/-- 32-bit integer to dotted-quad string (`socket.inet_ntoa` of
`struct.pack`); callers must ensure the value fits 32 bits, which
`struct.pack` enforces with a range check. -/
def int2ip (n : Nat) : List Char :=
  octChars (n / 16777216 % 256) ++ '.' :: octChars (n / 65536 % 256) ++
    '.' :: octChars (n / 256 % 256) ++ '.' :: octChars (n % 256)

/-- The CIDR deriver `cidr_split(cidr)`: split `"A.B.C.D/N"` at `/`,
compute `maskbits = int('1' * (32 - N), 2)` (which raises unless
`0 ≤ N < 32`), then `start = rtr + 1`, `end = (rtr | maskbits) - 1`,
`sub = rtr & (0xffffffff ^ maskbits)`, and render the three derived
addresses back to dotted-quad form.  `struct.pack("!I", start)` raises
when `start` exceeds 32 bits (the other two derived values always fit),
so that case is an error. -/
def cidr_split (cidr : String) : Option (String × String × String × String × String) :=
  match splitOnChar '/' cidr.data with
  | [rtr, mask] =>
    match parseNat mask with
    | some n =>
      if n < 32 then
        match ip2int rtr with
        | some rtri =>
          let maskbits := 2 ^ (32 - n) - 1
          let starti := rtri + 1
          let endi := (rtri ||| maskbits) - 1
          let subi := rtri &&& (4294967295 ^^^ maskbits)
          if starti < 4294967296 then
            some (String.mk (int2ip starti), String.mk (int2ip endi),
              String.mk rtr, String.mk (int2ip subi), String.mk mask)
          else none
        | none => none
      else none
    | none => none
  | _ => none

/-- Modelled from the spec: the 5-tuple required by the spec's CIDR
algorithm paragraph — mask as `N` leading one-bits in host-bit-count form
(`2^(32-N) - 1`), first usable `= address + 1`, last usable
`= (address OR mask) - 1`, base `= address AND (complement of mask)` —
stated over the parsed address integer and prefix length.  This is the
refinement target the source `cidr_split` is compared against. -/
def cidr_formula (rtr mask : List Char) (rtri n : Nat) :
    String × String × String × String × String :=
  let m := 2 ^ (32 - n) - 1
  (String.mk (int2ip (rtri + 1)), String.mk (int2ip ((rtri ||| m) - 1)),
    String.mk rtr, String.mk (int2ip (rtri &&& (4294967295 ^^^ m))),
    String.mk mask)

/-! ### Deep merger (`deep_merge`, source lines 42-49)

`deep_merge(user, default)` iterates the default tree's items: a key absent
from `user` is adopted, a key present in both recurses (which keeps the
`user` value whenever the two values are not both dicts).  The Python
function mutates `user` in place and returns it; the pure embedding
returns the updated primary tree. -/

mutual
def deep_merge : Value → Value → Value
  | Value.vDict u, Value.vDict d => Value.vDict (deep_merge_list u d)
  | u, _ => u

def deep_merge_list (u : List (String × Value)) : List (String × Value) → List (String × Value)
  | [] => u
  | (k, v) :: rest =>
    match getKey u k with
    | none => deep_merge_list (u ++ [(k, v)]) rest
    | some uv => deep_merge_list (setKey u k (deep_merge uv v)) rest
end

/-- No key occurs twice (invariant of every Python dict). -/
def nodupKeys : List (String × Value) → Bool
  | [] => true
  | (k, _) :: rest => (getKey rest k).isNone && nodupKeys rest

mutual
/-- Well-formed tree: every dict in it has pairwise-distinct keys, as is
forced for values built from Python dicts. -/
def wf : Value → Bool
  | .vDict l => nodupKeys l && wfList l
  | _ => true

def wfList : List (String × Value) → Bool
  | [] => true
  | (_, v) :: rest => wf v && wfList rest
end

/-! ### Default tree and command-line tree (`config_default`, `main`) -/

/-- The static default configuration tree (source lines 52-101). -/
def config_default : Value :=
  .vDict [
    ("aci_config", .vDict [
      ("system_id", .vStr "kube"),
      ("vrf", .vDict [
        ("name", .vStr "kube"),
        ("tenant", .vStr "common")]),
      ("l3out", .vDict [
        ("name", .vStr "l3out"),
        ("external_networks", .vList [.vStr "default"])]),
      ("vmm_domain", .vDict [
        ("encap_type", .vStr "vxlan"),
        ("mcast_fabric", .vStr "225.1.2.3"),
        ("mcast_range", .vDict [
          ("start", .vStr "225.2.1.1"),
          ("end", .vStr "225.2.255.255")])]),
      ("client_cert", .vBool false),
      ("client_ssl", .vBool true)]),
    ("net_config", .vDict [
      ("node_subnet", .vStr "10.1.0.1/16"),
      ("pod_subnet", .vStr "10.2.0.1/16"),
      ("extern_dynamic", .vStr "10.3.0.1/24"),
      ("extern_static", .vStr "10.4.0.1/24"),
      ("node_svc_subnet", .vStr "10.5.0.1/24"),
      ("kubeapi_vlan", .vInt 4001),
      ("service_vlan", .vInt 4003),
      ("infra_vlan", .vInt 4093)]),
    ("kube_config", .vDict [
      ("controller", .vStr "1.1.1.1"),
      ("use_cluster_role", .vBool true),
      ("use_ds_rolling_update", .vBool true)]),
    ("registry", .vDict [
      ("image_prefix", .vStr "noiro")]),
    ("logging", .vDict [
      ("controller_log_level", .vStr "info"),
      ("hostagent_log_level", .vStr "info"),
      ("opflexagent_log_level", .vStr "info"),
      ("aim_debug", .vStr "False")])]

/-- The command-line override tree built at the top of `main`
(source lines 376-385): an `apic_login` dict holding the `--username` /
`--password` flags when given. -/
def cli_config (username password : Option String) : Value :=
  .vDict [("aci_config", .vDict [("apic_login", .vDict (
    (match username with
      | some u => [("username", Value.vStr u)]
      | none => []) ++
    (match password with
      | some p => [("password", Value.vStr p)]
      | none => [])))])]

/-- The fully merged primary tree of `main` (source lines 387-391):
command-line overrides merged with the user tree, then with defaults. -/
def merged_config (username password : Option String) (user_config : Value) : Value :=
  deep_merge (deep_merge (cli_config username password) user_config) config_default

/-! ### Fabric controller collaborator (`Apic`, `get_apic`) -/

/-- The fabric controller client, an external collaborator: each logical
operation is an oracle whose call may fail (transport error). -/
structure Apic where
  get_infravlan : Except Unit Value
  get_aep : Value → Except Unit (Option Unit)
  get_vrf : Value → Value → Except Unit (Option Unit)
  get_l3out : Value → Value → Except Unit (Option Unit)

/-- Python sequence indexing `x[0]`, as used on `apic_hosts`. -/
def firstItem : Value → Except Unit Value
  | .vList (v :: _) => .ok v
  | .vStr s =>
    match s.data with
    | c :: _ => .ok (.vStr (String.mk [c]))
    | [] => .error ()
  | _ => .error ()

/-- `get_apic(config)` (source lines 332-337): reads the first fabric host
and the login credentials out of the tree (raising if absent), then
constructs the client — modelled by threading the collaborator through. -/
def get_apic (config : Value) (apic : Apic) : Except Unit Apic :=
  match getPath config ["aci_config", "apic_hosts"] with
  | .error e => .error e
  | .ok hosts =>
    match firstItem hosts with
    | .error e => .error e
    | .ok _ =>
      match getPath config ["aci_config", "apic_login", "username"] with
      | .error e => .error e
      | .ok _ =>
        match getPath config ["aci_config", "apic_login", "password"] with
        | .error e => .error e
        | .ok _ => .ok apic

/-! ### Config adjuster (`config_adjust`, source lines 131-227) -/

/-- Read a path and coerce the value to a string (the adjuster applies
string operations to every field it reads this way). -/
def getStrPath (config : Value) (path : List String) : Except Unit String :=
  match getPath config path with
  | .error e => .error e
  | .ok v => asStr v

/-- Body of `config_adjust` once the infra VLAN has been resolved: derive
the naming conventions from `system_id` by suffixing, run the four subnets
through `cidr_split` for the IP pools and the pod network entry, and emit
the default endpoint-group bindings.  A failing read or an unsplittable
subnet raises; since every raise carries the same (unit) error, the order
in which the reads happen is not observable and is flattened here. -/
def config_adjust_core (config : Value) (infra_vlan : Value) : Except Unit Value :=
  match getStrPath config ["aci_config", "system_id"] with
  | .error e => .error e
  | .ok system_id =>
  match getStrPath config ["net_config", "pod_subnet"] with
  | .error e => .error e
  | .ok pod_subnet =>
  match getStrPath config ["net_config", "extern_dynamic"] with
  | .error e => .error e
  | .ok extern_dynamic =>
  match getStrPath config ["net_config", "extern_static"] with
  | .error e => .error e
  | .ok extern_static =>
  match getStrPath config ["net_config", "node_svc_subnet"] with
  | .error e => .error e
  | .ok node_svc_subnet =>
  match getPath config ["aci_config", "vmm_domain", "encap_type"] with
  | .error e => .error e
  | .ok encap_type =>
  match cidr_split pod_subnet with
  | none => .error ()
  | some ps =>
  match cidr_split extern_dynamic with
  | none => .error ()
  | some eds =>
  match cidr_split extern_static with
  | none => .error ()
  | some ess =>
  match cidr_split node_svc_subnet with
  | none => .error ()
  | some nss =>
  let tenant := system_id
  .ok (.vDict [
    ("aci_config", .vDict [
      ("cluster_tenant", .vStr tenant),
      ("physical_domain", .vDict [
        ("domain", .vStr (system_id ++ "-pdom")),
        ("vlan_pool", .vStr (system_id ++ "-pool"))]),
      ("vmm_domain", .vDict [
        ("domain", .vStr system_id),
        ("controller", .vStr system_id),
        ("mcast_pool", .vStr (system_id ++ "-mpool"))]),
      ("aim_login", .vDict [
        ("username", .vStr system_id),
        ("password", .vStr "ToBeFixed!"),
        ("certfile", .vNone)])]),
    ("net_config", .vDict [
      ("infra_vlan", infra_vlan)]),
    ("node_config", .vDict [
      ("encap_type", encap_type)]),
    ("kube_config", .vDict [
      ("default_endpoint_group", .vDict [
        ("tenant", .vStr tenant),
        ("app_profile", .vStr "kubernetes"),
        ("group", .vStr "kube-default")]),
      ("namespace_default_endpoint_group", .vDict [
        ("kube-system", .vDict [
          ("tenant", .vStr tenant),
          ("app_profile", .vStr "kubernetes"),
          ("group", .vStr "kube-system")])]),
      ("pod_ip_pool", .vList [.vDict [
        ("start", .vStr ps.1),
        ("end", .vStr ps.2.1)]]),
      ("pod_network", .vList [.vDict [
        ("subnet", .vStr (ps.2.2.2.1 ++ "/" ++ ps.2.2.2.2)),
        ("gateway", .vStr ps.2.2.1),
        ("routes", .vList [.vDict [
          ("dst", .vStr "0.0.0.0/0"),
          ("gw", .vStr ps.2.2.1)]])]]),
      ("service_ip_pool", .vList [.vDict [
        ("start", .vStr eds.1),
        ("end", .vStr eds.2.1)]]),
      ("static_service_ip_pool", .vList [.vDict [
        ("start", .vStr ess.1),
        ("end", .vStr ess.2.1)]]),
      ("node_service_ip_pool", .vList [.vDict [
        ("start", .vStr nss.1),
        ("end", .vStr nss.2.1)]]),
      ("node_service_gw_subnets", .vList [.vStr node_svc_subnet])])])

/-- `config_adjust(config, prov_apic)` (source lines 131-227): build the
derived tree.  When the provisioning flag is set, construct the client
(`get_apic`) and take the infra VLAN from the live `apic.get_infravlan()`
call; otherwise take the statically configured `net_config.infra_vlan`.
Then derive the rest of the tree with `config_adjust_core`. -/
def config_adjust (config : Value) (prov_apic : Option Bool) (apic : Apic) :
    Except Unit Value :=
  match prov_apic with
  | none =>
    match getPath config ["net_config", "infra_vlan"] with
    | .error e => .error e
    | .ok iv => config_adjust_core config iv
  | some _ =>
    match get_apic config apic with
    | .error e => .error e
    | .ok a =>
      match getPath config ["net_config", "infra_vlan"] with
      | .error e => .error e
      | .ok _ =>
        match a.get_infravlan with
        | .error e => .error e
        | .ok iv => config_adjust_core config iv

/-! ### Config validator (`config_validate`, source lines 230-255) -/

/-- The validator's path walk
`reduce(lambda x, y: x and x.get(y), path, config)`: a falsy intermediate
short-circuits (carrying the falsy value through), a truthy dict looks the
key up (`get` yields `None` when absent), and a truthy non-dict raises
`AttributeError` — the one situation modelled as an error. -/
def walk (x : Value) : List String → Except Unit Value
  | [] => .ok x
  | y :: rest =>
    if truthy x then
      match x with
      | .vDict l =>
        match getKey l y with
        | some v => walk v rest
        | none => walk Value.vNone rest
      | _ => .error ()
    else .ok x

/-- The fixed table of (logical name, tree path) entries checked by
`config_validate`, in source order. -/
def validateChecks : List (String × List String) :=
  [("system_id", ["aci_config", "system_id"]),
   ("aep", ["aci_config", "aep"]),
   ("apic_host", ["aci_config", "apic_hosts"]),
   ("apic_username", ["aci_config", "apic_login", "username"]),
   ("apic_password", ["aci_config", "apic_login", "password"]),
   ("uplink_if", ["node_config", "uplink_iface"]),
   ("vxlan_if", ["node_config", "vxlan_uplink_iface"]),
   ("kubeapi_vlan", ["net_config", "kubeapi_vlan"]),
   ("service_vlan", ["net_config", "service_vlan"])]

/-- Walk every checked path and collect the logical names whose value is
falsy (`required = lambda x: x`), in table order; a raising walk
propagates (the `checks` dict in the source is built before the guarded
loop, so an `AttributeError` there escapes `config_validate`). -/
def validate_list (config : Value) : List (String × List String) → Except Unit (List String)
  | [] => .ok []
  | (name, path) :: rest =>
    match walk config path with
    | .error e => .error e
    | .ok v =>
      match validate_list config rest with
      | .error e => .error e
      | .ok fs => .ok (if truthy v then fs else name :: fs)

/-- `config_validate(config)`: the list of failing logical names (each one
is reported with an `ERR` line) and the overall success flag, which is
true exactly when no entry failed. -/
def config_validate (config : Value) : Except Unit (List String × Bool) :=
  (validate_list config validateChecks).map (fun fs => (fs, fs.isEmpty))

/-! ### Config advisor (`config_advise`, source lines 258-282) -/

/-- The advisory checks inside the `try` block: nothing when the
provisioning flag is unset; otherwise build the client and query the AEP,
VRF and L3out objects, collecting one warning per missing object.  Any
raise inside (missing tree key, failing query) escapes to the handler. -/
def advise_body (config : Value) (prov_apic : Option Bool) (apic : Apic) :
    Except Unit (List String) :=
  match prov_apic with
  | none => .ok []
  | some _ =>
    match get_apic config apic with
    | .error e => .error e
    | .ok a =>
      match getPath config ["aci_config", "aep"] with
      | .error e => .error e
      | .ok aep_name =>
        match a.get_aep aep_name with
        | .error e => .error e
        | .ok aep =>
          let w1 := match aep with
            | none => ["AEP not defined in the APIC"]
            | some _ => []
          match getPath config ["aci_config", "vrf", "tenant"] with
          | .error e => .error e
          | .ok vrf_tenant =>
            match getPath config ["aci_config", "vrf", "name"] with
            | .error e => .error e
            | .ok vrf_name =>
              match getPath config ["aci_config", "l3out", "name"] with
              | .error e => .error e
              | .ok l3out_name =>
                match a.get_vrf vrf_tenant vrf_name with
                | .error e => .error e
                | .ok vrf =>
                  let w2 := match vrf with
                    | none => ["VRF not defined in the APIC"]
                    | some _ => []
                  match a.get_l3out vrf_tenant l3out_name with
                  | .error e => .error e
                  | .ok l3out =>
                    let w3 := match l3out with
                      | none => ["L3out not defined in the APIC"]
                      | some _ => []
                    .ok (w1 ++ w2 ++ w3)

/-- `config_advise(config, prov_apic)`: the emitted warnings together with
the returned flag.  A raise anywhere in the body is caught and downgraded
to a single warning; the function returns `True` on every path. -/
def config_advise (config : Value) (prov_apic : Option Bool) (apic : Apic) :
    List String × Bool :=
  match advise_body config prov_apic apic with
  | .ok ws => (ws, true)
  | .error _ => (["Error in validating existence of AEP"], true)

/-! ### Pipeline (`main`, source lines 361-411) -/

/-- The stages of `main`'s configuration pipeline, in the order the source
executes them. -/
inductive Stage where
  | mergeUser
  | mergeDefaults
  | validate
  | adjust
  | mergeAdjusted
  | advise
  | generate
deriving DecidableEq

/-- The post-merge assignment
`config["net_config"]["infra_vlan"] = adj_config["net_config"]["infra_vlan"]`
(source lines 401-402); subscripting raises if `net_config` is not a dict. -/
def set_infra_vlan (config v : Value) : Except Unit Value :=
  match config with
  | .vDict l =>
    match getKey l "net_config" with
    | some (.vDict nl) =>
      .ok (.vDict (setKey l "net_config" (.vDict (setKey nl "infra_vlan" v))))
    | _ => .error ()
  | _ => .error ()

/-- The configuration pipeline of `main` (the `--sample` shortcut and the
file/stream output of the generators are outside the derivation pipeline):
merge the command-line tree with the user tree, merge with defaults,
validate (hard gate, aborting on failure), adjust and merge the derived
tree, force the adjusted infra VLAN into the result, then run the advisory
checks (result ignored) and generate the outputs.  Returns the executed
stages alongside the final tree and the advisor's warnings. -/
def pipeline (username password : Option String) (user_config : Value)
    (prov_apic : Option Bool) (apic : Apic) :
    List Stage × Except Unit (Value × List String) :=
  let config := merged_config username password user_config
  match config_validate config with
  | .error e => ([.mergeUser, .mergeDefaults, .validate], .error e)
  | .ok (_, b) =>
    if b then
      match config_adjust config prov_apic apic with
      | .error e => ([.mergeUser, .mergeDefaults, .validate, .adjust], .error e)
      | .ok adj =>
        let config2 := deep_merge config adj
        match getPath adj ["net_config", "infra_vlan"] with
        | .error e =>
          ([.mergeUser, .mergeDefaults, .validate, .adjust, .mergeAdjusted], .error e)
        | .ok iv =>
          match set_infra_vlan config2 iv with
          | .error e =>
            ([.mergeUser, .mergeDefaults, .validate, .adjust, .mergeAdjusted], .error e)
          | .ok config3 =>
            let adv := config_advise config3 prov_apic apic
            ([.mergeUser, .mergeDefaults, .validate, .adjust, .mergeAdjusted,
                .advise, .generate],
              .ok (config3, adv.1))
    else ([.mergeUser, .mergeDefaults, .validate], .error ())

/-! ### Concrete values used by witnesses and counterexamples -/

/-- A minimal user tree supplying every required field the defaults do not
provide; together with the defaults it passes validation. -/
def userConfigA : Value :=
  .vDict [
    ("aci_config", .vDict [
      ("aep", .vStr "kube-cluster"),
      ("apic_hosts", .vList [.vStr "10.30.120.100"]),
      ("apic_login", .vDict [
        ("username", .vStr "admin"),
        ("password", .vStr "secret")])]),
    ("node_config", .vDict [
      ("uplink_iface", .vStr "eth1"),
      ("vxlan_uplink_iface", .vStr "eth1.4093")])]

/-- `userConfigA` with the fabric admin password removed. -/
def userConfigNoPass : Value :=
  .vDict [
    ("aci_config", .vDict [
      ("aep", .vStr "kube-cluster"),
      ("apic_hosts", .vList [.vStr "10.30.120.100"]),
      ("apic_login", .vDict [
        ("username", .vStr "admin")])]),
    ("node_config", .vDict [
      ("uplink_iface", .vStr "eth1"),
      ("vxlan_uplink_iface", .vStr "eth1.4093")])]

/-- `userConfigA` with the Kubernetes-API VLAN id explicitly set to `0`. -/
def userConfigKube0 : Value :=
  .vDict [
    ("aci_config", .vDict [
      ("aep", .vStr "kube-cluster"),
      ("apic_hosts", .vList [.vStr "10.30.120.100"]),
      ("apic_login", .vDict [
        ("username", .vStr "admin"),
        ("password", .vStr "secret")])]),
    ("net_config", .vDict [
      ("kubeapi_vlan", .vInt 0)]),
    ("node_config", .vDict [
      ("uplink_iface", .vStr "eth1"),
      ("vxlan_uplink_iface", .vStr "eth1.4093")])]

/-- A tree whose fabric admin password is absent while another branch
(`node_config`) holds a truthy non-mapping value. -/
def configStrNodeNoPass : Value :=
  .vDict [
    ("aci_config", .vDict [
      ("apic_login", .vDict [
        ("username", .vStr "admin")])]),
    ("node_config", .vStr "x")]

/-- A tree whose Kubernetes-API VLAN id is present but `0` while another
branch (`node_config`) holds a truthy non-mapping value. -/
def configStrNodeKube0 : Value :=
  .vDict [
    ("net_config", .vDict [
      ("kubeapi_vlan", .vInt 0)]),
    ("node_config", .vStr "x")]

/-- A stub fabric collaborator whose queries all succeed: the infra VLAN
lookup answers 4093 and every existence query answers "absent". -/
def apicStub : Apic :=
  ⟨.ok (.vInt 4093), fun _ => .ok none, fun _ _ => .ok none, fun _ _ => .ok none⟩

/-! ## Association-list and merge lemmas -/

theorem getKey_setKey_self (l : List (String × Value)) (k : String) (v : Value) :
    getKey (setKey l k v) k = some v := by
  induction l with
  | nil => simp [setKey, getKey]
  | cons kv rest ih =>
    obtain ⟨k', v'⟩ := kv
    by_cases h : k' = k <;> simp [setKey, h, getKey, ih]

theorem getKey_setKey_ne (l : List (String × Value)) (k k' : String) (v : Value)
    (h : k ≠ k') : getKey (setKey l k v) k' = getKey l k' := by
  induction l with
  | nil => simp [setKey, getKey, h]
  | cons kv rest ih =>
    obtain ⟨k0, v0⟩ := kv
    by_cases h0 : k0 = k
    · subst h0
      simp [setKey, getKey, h]
    · simp only [setKey, if_neg h0]
      by_cases h1 : k0 = k' <;> simp [getKey, h1, ih]

theorem getKey_append_ne (u : List (String × Value)) (k0 k : String) (v0 : Value)
    (h : k0 ≠ k) : getKey (u ++ [(k0, v0)]) k = getKey u k := by
  induction u with
  | nil => simp [getKey, h]
  | cons kv rest ih =>
    obtain ⟨k', v'⟩ := kv
    by_cases h' : k' = k <;> simp [getKey, h', ih]

theorem getKey_append_self (u : List (String × Value)) (k : String) (v : Value)
    (h : getKey u k = none) : getKey (u ++ [(k, v)]) k = some v := by
  induction u with
  | nil => simp [getKey]
  | cons kv rest ih =>
    obtain ⟨k', v'⟩ := kv
    by_cases h' : k' = k
    · simp [getKey, h'] at h
    · simp only [getKey, h', if_false, List.cons_append] at h ⊢
      simp [getKey, h', ih h]

/-- A key the secondary tree does not hold is untouched by the merge. -/
theorem merge_list_not_mem (d : List (String × Value)) (u : List (String × Value))
    (k : String) (h : getKey d k = none) :
    getKey (deep_merge_list u d) k = getKey u k := by
  induction d generalizing u with
  | nil => simp [deep_merge_list]
  | cons kv rest ih =>
    obtain ⟨k0, v0⟩ := kv
    have hne : k0 ≠ k := by
      intro he
      simp [getKey, he] at h
    have hrest : getKey rest k = none := by
      simpa [getKey, hne] using h
    cases hu : getKey u k0 with
    | none =>
      simp only [deep_merge_list, hu]
      rw [ih _ hrest, getKey_append_ne _ _ _ _ hne]
    | some uv =>
      simp only [deep_merge_list, hu]
      rw [ih _ hrest, getKey_setKey_ne _ _ _ _ hne]

/-- What the merge stores at a key the secondary tree holds (the secondary
tree having no duplicate keys): the secondary value if the key was absent
from the primary, otherwise the recursive merge of the two values. -/
theorem merge_list_getKey (d : List (String × Value)) (u : List (String × Value))
    (k : String) (v : Value) (hd : nodupKeys d = true) (hk : getKey d k = some v) :
    getKey (deep_merge_list u d) k =
      some (match getKey u k with
        | some uv => deep_merge uv v
        | none => v) := by
  induction d generalizing u with
  | nil => simp [getKey] at hk
  | cons kv rest ih =>
    obtain ⟨k0, v0⟩ := kv
    have hd' : (getKey rest k0).isNone = true ∧ nodupKeys rest = true := by
      simpa [nodupKeys, Bool.and_eq_true] using hd
    by_cases he : k0 = k
    · subst he
      have hv : v = v0 := by
        simp [getKey] at hk
        exact hk.symm
      subst hv
      have hrest : getKey rest k0 = none := by
        cases hg : getKey rest k0 with
        | none => rfl
        | some w => rw [hg] at hd'; simp at hd'
      cases hu : getKey u k0 with
      | none =>
        simp only [deep_merge_list, hu]
        rw [merge_list_not_mem rest _ _ hrest, getKey_append_self _ _ _ hu]
      | some uv =>
        simp only [deep_merge_list, hu]
        rw [merge_list_not_mem rest _ _ hrest, getKey_setKey_self]
    · have hkrest : getKey rest k = some v := by
        simpa [getKey, he] using hk
      cases hu : getKey u k0 with
      | none =>
        simp only [deep_merge_list, hu]
        rw [ih _ hd'.2 hkrest, getKey_append_ne _ _ _ _ he]
      | some uv =>
        simp only [deep_merge_list, hu]
        rw [ih _ hd'.2 hkrest, getKey_setKey_ne _ _ _ _ he]

theorem setKey_eq_self (l : List (String × Value)) (k : String) (v : Value)
    (h : getKey l k = some v) : setKey l k v = l := by
  induction l with
  | nil => simp [getKey] at h
  | cons kv rest ih =>
    obtain ⟨k', v'⟩ := kv
    by_cases he : k' = k
    · subst he
      simp [getKey] at h
      simp [setKey, h]
    · simp only [getKey, if_neg he] at h
      simp [setKey, he, ih h]

theorem getKey_mem (l : List (String × Value)) (k : String) (v : Value)
    (h : getKey l k = some v) : (k, v) ∈ l := by
  induction l with
  | nil => simp [getKey] at h
  | cons kv rest ih =>
    obtain ⟨k', v'⟩ := kv
    by_cases he : k' = k
    · subst he
      simp [getKey] at h
      simp [h]
    · simp only [getKey, if_neg he] at h
      exact List.mem_cons_of_mem _ (ih h)

theorem wfList_mem (l : List (String × Value)) (k : String) (v : Value)
    (hl : wfList l = true) (hm : (k, v) ∈ l) : wf v = true := by
  induction l with
  | nil => simp at hm
  | cons kv rest ih =>
    obtain ⟨k', v'⟩ := kv
    have h' : wf v' = true ∧ wfList rest = true := by
      simpa [wfList, Bool.and_eq_true] using hl
    rcases List.mem_cons.mp hm with he | hm'
    · obtain ⟨-, hv⟩ := Prod.mk.injEq .. ▸ he
      cases he
      exact h'.1
    · exact ih h'.2 hm'

theorem sizeOf_getKey_lt (l : List (String × Value)) (k : String) (v : Value)
    (h : (k, v) ∈ l) : sizeOf v < sizeOf (Value.vDict l) := by
  have h1 := List.sizeOf_lt_of_mem h
  simp only [Prod.mk.sizeOf_spec] at h1
  simp only [Value.vDict.sizeOf_spec]
  omega

/-- A merge absorbs a duplicate-free secondary tree each of whose values is
already absorbed at its key in the primary tree. -/
theorem merge_list_absorb (d u : List (String × Value)) (hd : nodupKeys d = true)
    (h : ∀ k v, getKey d k = some v → ∃ w, getKey u k = some w ∧ deep_merge w v = w) :
    deep_merge_list u d = u := by
  induction d with
  | nil => rfl
  | cons kv rest ih =>
    obtain ⟨k0, v0⟩ := kv
    have hd' : (getKey rest k0).isNone = true ∧ nodupKeys rest = true := by
      simpa [nodupKeys, Bool.and_eq_true] using hd
    obtain ⟨w, hw, habs⟩ := h k0 v0 (by simp [getKey])
    simp only [deep_merge_list, hw]
    rw [habs, setKey_eq_self _ _ _ hw]
    apply ih hd'.2
    intro k v hk
    apply h
    by_cases he : k0 = k
    · subst he
      rw [hk] at hd'
      simp at hd'
    · simpa [getKey, he] using hk

/-- Merging a well-formed tree once more changes nothing, and a
well-formed tree merged with itself is itself (strong induction on the
tree size). -/
theorem deep_merge_idem_aux :
    ∀ (n : Nat) (v : Value), sizeOf v ≤ n → wf v = true →
      (∀ a, deep_merge (deep_merge a v) v = deep_merge a v) ∧ deep_merge v v = v := by
  intro n
  induction n with
  | zero =>
    intro v hv _
    exfalso
    cases v <;> simp at hv
  | succ n ih =>
    intro v hv hwf
    cases v with
    | vDict d =>
      have hdw : nodupKeys d = true ∧ wfList d = true := by
        simpa [wf, Bool.and_eq_true] using hwf
      have habs : ∀ (u : List (String × Value)), ∀ k v, getKey d k = some v →
          ∃ w, getKey (deep_merge_list u d) k = some w ∧ deep_merge w v = w := by
        intro u k v hk
        have hmem := getKey_mem d k v hk
        have hsz : sizeOf v ≤ n := by
          have hlt := sizeOf_getKey_lt d k v hmem
          simp only [Value.vDict.sizeOf_spec] at hv hlt
          omega
        have ihv := ih v hsz (wfList_mem d k v hdw.2 hmem)
        cases hu : getKey u k with
        | none =>
          refine ⟨v, ?_, ihv.2⟩
          rw [merge_list_getKey d u k v hdw.1 hk, hu]
        | some uv =>
          refine ⟨deep_merge uv v, ?_, ihv.1 uv⟩
          rw [merge_list_getKey d u k v hdw.1 hk, hu]
      constructor
      · intro a
        cases a with
        | vDict u =>
          simp only [deep_merge]
          rw [merge_list_absorb d _ hdw.1 (habs u)]
        | vNone => rfl
        | vBool b => rfl
        | vInt i => rfl
        | vStr s => rfl
        | vList l => rfl
      · have hself : ∀ k v, getKey d k = some v →
            ∃ w, getKey d k = some w ∧ deep_merge w v = w := by
          intro k v hk
          have hmem := getKey_mem d k v hk
          have hsz : sizeOf v ≤ n := by
            have hlt := sizeOf_getKey_lt d k v hmem
            simp only [Value.vDict.sizeOf_spec] at hv hlt
            omega
          exact ⟨v, hk, (ih v hsz (wfList_mem d k v hdw.2 hmem)).2⟩
        simp only [deep_merge]
        rw [merge_list_absorb d d hdw.1 hself]
    | vNone => exact ⟨fun a => by cases a <;> rfl, rfl⟩
    | vBool b => exact ⟨fun a => by cases a <;> rfl, rfl⟩
    | vInt i => exact ⟨fun a => by cases a <;> rfl, rfl⟩
    | vStr s => exact ⟨fun a => by cases a <;> rfl, rfl⟩
    | vList l => exact ⟨fun a => by cases a <;> rfl, rfl⟩

/-! ## Claim C7 — deep merge contract -/

/-- C7: `merge(primary, secondary)` (with the secondary a genuine dict,
i.e. duplicate-free) returns the updated primary tree in which a key
present only in the secondary is adopted from the secondary, a key present
in both as nested mappings is merged recursively, and a key present in
both as non-mapping values keeps the primary value unchanged.  (The Python
function updates `primary` in place and returns it; aliasing itself is not
representable in the pure embedding, which returns the updated tree.) -/
theorem C7_deep_merge_contract (u d : List (String × Value)) (hd : nodupKeys d = true)
    (k : String) :
    deep_merge (Value.vDict u) (Value.vDict d) = Value.vDict (deep_merge_list u d)
    ∧ (getKey u k = none → getKey (deep_merge_list u d) k = getKey d k)
    ∧ (∀ u2 d2, getKey u k = some (Value.vDict u2) → getKey d k = some (Value.vDict d2) →
        getKey (deep_merge_list u d) k = some (Value.vDict (deep_merge_list u2 d2)))
    ∧ (∀ uv dv, getKey u k = some uv → getKey d k = some dv →
        isDict uv = false → isDict dv = false →
        getKey (deep_merge_list u d) k = some uv) := by
  refine ⟨rfl, ?_, ?_, ?_⟩
  · intro hu
    cases hk : getKey d k with
    | none => rw [merge_list_not_mem d u k hk, hu]
    | some v => rw [merge_list_getKey d u k v hd hk, hu]
  · intro u2 d2 hu hdk
    rw [merge_list_getKey d u k _ hd hdk, hu]
    rfl
  · intro uv dv hu hdk huv hdv
    rw [merge_list_getKey d u k dv hd hdk, hu]
    cases uv <;> cases dv <;> simp_all [isDict, deep_merge]

/-- Witness for C7 at concrete trees: the key `"b"` present only in the
secondary is adopted, and the merge of the dicts is the merged list. -/
theorem C7_witness :
    getKey (deep_merge_list [("a", Value.vInt 1)]
        [("a", Value.vInt 2), ("b", Value.vInt 3)]) "b"
      = getKey [("a", Value.vInt 2), ("b", Value.vInt 3)] "b"
    ∧ deep_merge (Value.vDict [("a", Value.vInt 1)])
        (Value.vDict [("a", Value.vInt 2), ("b", Value.vInt 3)])
      = Value.vDict (deep_merge_list [("a", Value.vInt 1)]
        [("a", Value.vInt 2), ("b", Value.vInt 3)]) :=
  ⟨(C7_deep_merge_contract [("a", Value.vInt 1)]
      [("a", Value.vInt 2), ("b", Value.vInt 3)] (by rfl) "b").2.1 (by rfl),
   (C7_deep_merge_contract [("a", Value.vInt 1)]
      [("a", Value.vInt 2), ("b", Value.vInt 3)] (by rfl) "b").1⟩

/-! ## Claim C8 — deep merge idempotence -/

/-- C8: the deep merger is idempotent: for trees `A` and `B` (with `B`
well-formed, i.e. the dicts in it are duplicate-free, as every tree built
from Python dicts is), `merge(merge(A, B), B) = merge(A, B)`. -/
theorem C8_deep_merge_idempotent (a b : Value) (hb : wf b = true) :
    deep_merge (deep_merge a b) b = deep_merge a b :=
  (deep_merge_idem_aux (sizeOf b) b le_rfl hb).1 a

/-- Witness for C8 at concrete nested trees. -/
theorem C8_witness :
    deep_merge (deep_merge
        (Value.vDict [("x", Value.vInt 1), ("nest", Value.vDict [("a", Value.vStr "u")])])
        (Value.vDict [("x", Value.vInt 2),
          ("nest", Value.vDict [("a", Value.vStr "d"), ("b", Value.vBool true)]),
          ("y", Value.vNone)]))
      (Value.vDict [("x", Value.vInt 2),
        ("nest", Value.vDict [("a", Value.vStr "d"), ("b", Value.vBool true)]),
        ("y", Value.vNone)])
    = deep_merge
        (Value.vDict [("x", Value.vInt 1), ("nest", Value.vDict [("a", Value.vStr "u")])])
        (Value.vDict [("x", Value.vInt 2),
          ("nest", Value.vDict [("a", Value.vStr "d"), ("b", Value.vBool true)]),
          ("y", Value.vNone)]) :=
  C8_deep_merge_idempotent _ _ (by rfl)

/-! ## Claim C5 — the advisor always reports success -/

/-- C5: `config_advise` returns the success flag `True` for every
configuration tree, every provisioning intent and every fabric
collaborator — also when every existence check answers "absent" and when
the underlying queries (or the tree reads) raise, since the whole body is
wrapped in a handler that downgrades any raise to a warning. -/
theorem C5_advisor_always_succeeds (c : Value) (p : Option Bool) (a : Apic) :
    (config_advise c p a).2 = true := by
  unfold config_advise
  cases advise_body c p a <;> rfl

/-! ## Claim C9 — no provisioning intent, no fabric dependency -/

/-- C9: with the provisioning flag unset, the run's entire observable
result — executed stages, final tree, and advisor warnings — is the same
for every fabric collaborator: neither the adjuster (which takes the
static `net_config.infra_vlan`) nor the advisor (which skips all its
checks) consults the fabric controller. -/
theorem C9_no_provision_no_fabric (u p : Option String) (uc : Value) (a1 a2 : Apic) :
    pipeline u p uc none a1 = pipeline u p uc none a2 := by
  have hadj : ∀ c, config_adjust c none a1 = config_adjust c none a2 := fun _ => rfl
  have hadv : ∀ c, config_advise c none a1 = config_advise c none a2 := fun _ => rfl
  simp only [pipeline, hadj, hadv]

/-! ## Claim C1 — pipeline stage order (the source validates before adjusting) -/

/-- C1 (amended): the pipeline's hard gate runs BEFORE the adjuster, on
the merged-but-unadjusted tree.  The first three executed stages are
always the two merges followed by `validate`; whenever `adjust` runs it
comes right after `validate` (positions 2 and 3); a failing or raising
validation of `merged_config` stops the run before `adjust`; and a
passing validation of that same unadjusted tree is what admits `adjust`. -/
theorem C1_validate_before_adjust (u p : Option String) (uc : Value)
    (prov : Option Bool) (apic : Apic) :
    (pipeline u p uc prov apic).1.take 3
      = [Stage.mergeUser, Stage.mergeDefaults, Stage.validate]
    ∧ (Stage.adjust ∈ (pipeline u p uc prov apic).1 →
        ((pipeline u p uc prov apic).1[2]? = some Stage.validate
          ∧ (pipeline u p uc prov apic).1[3]? = some Stage.adjust))
    ∧ (∀ fs, config_validate (merged_config u p uc) = .ok (fs, false) →
        (pipeline u p uc prov apic).2 = .error ()
          ∧ Stage.adjust ∉ (pipeline u p uc prov apic).1)
    ∧ (config_validate (merged_config u p uc) = .error () →
        Stage.adjust ∉ (pipeline u p uc prov apic).1)
    ∧ (∀ fs, config_validate (merged_config u p uc) = .ok (fs, true) →
        Stage.adjust ∈ (pipeline u p uc prov apic).1) := by
  rcases hv : config_validate (merged_config u p uc) with e | ⟨fs0, b0⟩
  · obtain rfl : e = () := rfl
    refine ⟨?_, ?_, ?_, ?_, ?_⟩
    · simp [pipeline, hv]
    · simp [pipeline, hv]
    · intro fs hc
      exact absurd hc (by simp)
    · intro _
      simp [pipeline, hv]
    · intro fs hc
      exact absurd hc (by simp)
  · cases b0 with
    | false =>
      refine ⟨?_, ?_, ?_, ?_, ?_⟩
      · simp [pipeline, hv]
      · simp [pipeline, hv]
      · intro fs _
        constructor
        · simp [pipeline, hv]
        · simp [pipeline, hv]
      · intro hc
        exact absurd hc (by simp)
      · intro fs hc
        simp at hc
    | true =>
      have main : (pipeline u p uc prov apic).1.take 3
            = [Stage.mergeUser, Stage.mergeDefaults, Stage.validate]
          ∧ (pipeline u p uc prov apic).1[2]? = some Stage.validate
          ∧ (pipeline u p uc prov apic).1[3]? = some Stage.adjust
          ∧ Stage.adjust ∈ (pipeline u p uc prov apic).1 := by
        rcases ha : config_adjust (merged_config u p uc) prov apic with e | adj
        · refine ⟨?_, ?_, ?_, ?_⟩ <;> simp [pipeline, hv, ha]
        · rcases hgp : getPath adj ["net_config", "infra_vlan"] with e | iv
          · refine ⟨?_, ?_, ?_, ?_⟩ <;> simp [pipeline, hv, ha, hgp]
          · rcases hsi : set_infra_vlan (deep_merge (merged_config u p uc) adj) iv
              with e | c3
            · refine ⟨?_, ?_, ?_, ?_⟩ <;> simp [pipeline, hv, ha, hgp, hsi]
            · refine ⟨?_, ?_, ?_, ?_⟩ <;> simp [pipeline, hv, ha, hgp, hsi]
      refine ⟨main.1, fun _ => ⟨main.2.1, main.2.2.1⟩, ?_, ?_, ?_⟩
      · intro fs hc
        simp at hc
      · intro hc
        exact absurd hc (by simp)
      · intro fs _
        exact main.2.2.2

/-- C1 counterexample: on a concrete passing run, `validate` is executed
at stage position 2 and `adjust` only afterwards at position 3 — the
opposite of the claimed "adjust, and only then validate" order — and the
merged tree the gate is decided on does not yet contain the
adjuster-derived `cluster_tenant` field. -/
theorem C1_counterexample :
    (pipeline none none userConfigA none apicStub).1 =
      [Stage.mergeUser, Stage.mergeDefaults, Stage.validate, Stage.adjust,
        Stage.mergeAdjusted, Stage.advise, Stage.generate]
    ∧ (pipeline none none userConfigA none apicStub).1[2]? = some Stage.validate
    ∧ (pipeline none none userConfigA none apicStub).1[3]? = some Stage.adjust
    ∧ getPath (merged_config none none userConfigA) ["aci_config", "cluster_tenant"]
      = .error () :=
  ⟨rfl, rfl, rfl, rfl⟩

/-- Witness for the amended C1 on a concrete run: the pre-adjust
validation passes, so `adjust` is executed. -/
theorem C1_witness :
    Stage.adjust ∈ (pipeline none none userConfigA none apicStub).1 :=
  (C1_validate_before_adjust none none userConfigA none apicStub).2.2.2.2 [] (by rfl)

/-! ## Claim C2 — the resolved infra VLAN wins -/

theorem get_apic_ok (c : Value) (a a' : Apic) (h : get_apic c a = .ok a') : a' = a := by
  unfold get_apic at h
  repeat' split at h
  any_goals exact Except.noConfusion h
  injection h with h2
  exact h2.symm

theorem config_adjust_core_infra (c iv adj : Value)
    (h : config_adjust_core c iv = .ok adj) :
    getPath adj ["net_config", "infra_vlan"] = .ok iv := by
  unfold config_adjust_core at h
  repeat' split at h
  any_goals exact Except.noConfusion h
  injection h with h2
  subst h2
  simp [getPath, getKey]

theorem set_infra_vlan_infra (c v c' : Value) (h : set_infra_vlan c v = .ok c') :
    getPath c' ["net_config", "infra_vlan"] = .ok v := by
  unfold set_infra_vlan at h
  repeat' split at h
  any_goals exact Except.noConfusion h
  injection h with h2
  subst h2
  simp [getPath, getKey_setKey_self]

/-- What the adjuster stores under `net_config.infra_vlan`: the static
configured value when the provisioning flag is unset, the live
`get_infravlan` answer when it is set. -/
theorem config_adjust_infra (c : Value) (prov : Option Bool) (a : Apic) (adj : Value)
    (h : config_adjust c prov a = .ok adj) :
    (prov = none →
      getPath adj ["net_config", "infra_vlan"] = getPath c ["net_config", "infra_vlan"])
    ∧ (∀ w b, prov = some b → a.get_infravlan = .ok w →
      getPath adj ["net_config", "infra_vlan"] = .ok w) := by
  cases prov with
  | none =>
    rcases hp : getPath c ["net_config", "infra_vlan"] with e | iv
    · simp only [config_adjust, hp] at h
      exact absurd h (by simp)
    · simp only [config_adjust, hp] at h
      refine ⟨fun _ => ?_, fun w b hb => by simp at hb⟩
      rw [config_adjust_core_infra _ _ _ h]
  | some pb =>
    rcases hg : get_apic c a with e | a'
    · simp only [config_adjust, hg] at h
      exact absurd h (by simp)
    · rcases hp : getPath c ["net_config", "infra_vlan"] with e | iv0
      · simp only [config_adjust, hg, hp] at h
        exact absurd h (by simp)
      · rcases hiv : a'.get_infravlan with e | iv
        · simp only [config_adjust, hg, hp, hiv] at h
          exact absurd h (by simp)
        · simp only [config_adjust, hg, hp, hiv] at h
          refine ⟨fun hn => by simp at hn, fun w b hb hw => ?_⟩
          have haa : a' = a := get_apic_ok c a a' hg
          subst haa
          rw [hw] at hiv
          injection hiv with h3
          rw [config_adjust_core_infra _ _ _ h, h3]

/-- C2: after a completed pipeline run, the final tree's
`net_config.infra_vlan` equals the value the adjuster derived — the live
fabric answer when the provisioning intent is set, otherwise the
statically configured (merged) value — because `main` forces the adjusted
value in after the generic merge (in which the already-present value,
here the default-derived one, would have won). -/
theorem C2_infra_vlan_wins (u p : Option String) (uc : Value) (prov : Option Bool)
    (apic : Apic) (final : Value) (ws : List String)
    (h : (pipeline u p uc prov apic).2 = .ok (final, ws)) :
    (prov = none →
      getPath final ["net_config", "infra_vlan"]
        = getPath (merged_config u p uc) ["net_config", "infra_vlan"])
    ∧ (∀ w b, prov = some b → apic.get_infravlan = .ok w →
      getPath final ["net_config", "infra_vlan"] = .ok w) := by
  rcases hv : config_validate (merged_config u p uc) with e | ⟨fs0, b0⟩ <;>
    simp only [pipeline, hv] at h
  · simp at h
  · cases b0 with
    | false => simp at h
    | true =>
      rcases ha : config_adjust (merged_config u p uc) prov apic with e | adj <;>
        simp only [ha] at h
      · simp at h
      · rcases hgp : getPath adj ["net_config", "infra_vlan"] with e | iv <;>
          simp only [hgp] at h
        · simp at h
        · rcases hsi : set_infra_vlan (deep_merge (merged_config u p uc) adj) iv
            with e | c3 <;> simp only [hsi] at h
          · simp at h
          · have hpair : c3 = final := by
              have := h
              simp at this
              exact this.1
            subst hpair
            have hfi : getPath c3 ["net_config", "infra_vlan"] = .ok iv :=
              set_infra_vlan_infra _ _ _ hsi
            have hadj := config_adjust_infra _ _ _ _ ha
            constructor
            · intro hpn
              rw [hfi, ← hadj.1 hpn, hgp]
            · intro w b hb hw
              rw [hfi]
              have h2 := hadj.2 w b hb hw
              rw [hgp] at h2
              injection h2 with h3
              rw [h3]

/-- Witness for C2: a concrete provisioning run against the stub fabric
(which answers VLAN 4093) ends with exactly that value resolved in the
final tree. -/
theorem C2_witness :
    (pipeline none none userConfigA (some true) apicStub).2.map
        (fun r => getPath r.1 ["net_config", "infra_vlan"])
      = .ok (.ok (Value.vInt 4093)) := by
  rcases hE : (pipeline none none userConfigA (some true) apicStub).2 with e | ⟨final, ws⟩
  · exact Except.noConfusion hE
  · have h2 := (C2_infra_vlan_wins none none userConfigA (some true) apicStub
      final ws hE).2 (Value.vInt 4093) true rfl rfl
    simp [Except.map, h2]

/-! ## Claims C4 and C10 — validator behaviour -/

theorem walk_vNone (rest : List String) : walk Value.vNone rest = .ok Value.vNone := by
  cases rest <;> rfl

/-- Dissect a successful `config_validate` run into its failure list. -/
theorem config_validate_ok (config : Value) (fs : List String) (b : Bool)
    (hok : config_validate config = .ok (fs, b)) :
    validate_list config validateChecks = .ok fs ∧ b = fs.isEmpty := by
  unfold config_validate at hok
  rcases hr : validate_list config validateChecks with e | fs0
  · rw [hr] at hok
    exact Except.noConfusion hok
  · rw [hr] at hok
    simp [Except.map] at hok
    obtain ⟨h1, h2⟩ := hok
    subst h1
    exact ⟨rfl, h2.symm⟩

/-- Any table entry whose (non-raising) walk yields a falsy value has its
logical name in the failure list — the loop keeps checking after a
failure. -/
theorem validate_list_mem (c : Value) (cs : List (String × List String))
    (fs : List String) (h : validate_list c cs = .ok fs)
    (name : String) (path : List String) (v : Value)
    (hmem : (name, path) ∈ cs) (hw : walk c path = .ok v) (hv : truthy v = false) :
    name ∈ fs := by
  induction cs generalizing fs with
  | nil => simp at hmem
  | cons np rest ih =>
    obtain ⟨n0, p0⟩ := np
    simp only [validate_list] at h
    rcases hw0 : walk c p0 with e | v0
    · rw [hw0] at h
      exact Except.noConfusion h
    · rw [hw0] at h
      rcases hr : validate_list c rest with e | fs0
      · rw [hr] at h
        exact Except.noConfusion h
      · rw [hr] at h
        injection h with h2
        subst h2
        rcases List.mem_cons.mp hmem with he | hm'
        · injection he with e1 e2
          subst e1
          subst e2
          rw [hw] at hw0
          injection hw0 with h3
          subst h3
          simp [hv]
        · have hmem0 := ih fs0 hr hm'
          by_cases ht : truthy v0 <;> simp [ht, hmem0]

/-- When no entry failed, every (non-raising) walk of a table entry yields
a truthy value. -/
theorem validate_list_nil_truthy (c : Value) (cs : List (String × List String))
    (h : validate_list c cs = .ok [])
    (name : String) (path : List String) (v : Value)
    (hmem : (name, path) ∈ cs) (hw : walk c path = .ok v) :
    truthy v = true := by
  induction cs with
  | nil => simp at hmem
  | cons np rest ih =>
    obtain ⟨n0, p0⟩ := np
    simp only [validate_list] at h
    rcases hw0 : walk c p0 with e | v0
    · rw [hw0] at h
      exact Except.noConfusion h
    · rw [hw0] at h
      rcases hr : validate_list c rest with e | fs0
      · rw [hr] at h
        exact Except.noConfusion h
      · rw [hr] at h
        injection h with h2
        have hsplit : fs0 = [] ∧ truthy v0 = true := by
          by_cases ht : truthy v0
          · rw [if_pos ht] at h2
            exact ⟨h2, ht⟩
          · rw [if_neg ht] at h2
            exact absurd h2 (by simp)
        rcases List.mem_cons.mp hmem with he | hm'
        · injection he with e1 e2
          subst e1
          subst e2
          rw [hw] at hw0
          injection hw0 with h3
          rw [h3]
          exact hsplit.2
        · exact ih (hsplit.1 ▸ hr) hm'

/-- C4 (amended): for every tree on which the validation run completes —
no checked path crossing a truthy non-mapping value, which would raise
while the `checks` table is built and escape `config_validate`, as the
counterexample exhibits — the validator records the logical name of each
failing entry while continuing through all entries, returns the overall
failure signal, treats a missing intermediate key as a falsy walk result
rather than raising, and in particular a tree whose fabric admin password
is missing or falsy fails validation with `"apic_password"` among the
reported names, whatever the other fields hold. -/
theorem C4_validator_contract (config : Value) (fs : List String) (b : Bool)
    (hok : config_validate config = .ok (fs, b))
    (v : Value)
    (hpw : walk config ["aci_config", "apic_login", "password"] = .ok v)
    (hfalsy : truthy v = false) :
    "apic_password" ∈ fs ∧ b = false
    ∧ (∀ name path w, (name, path) ∈ validateChecks →
        walk config path = .ok w → truthy w = false → name ∈ fs)
    ∧ (∀ (l : List (String × Value)) (k : String) (rest : List String),
        getKey l k = none →
        ∃ w, walk (Value.vDict l) (k :: rest) = .ok w ∧ truthy w = false) := by
  obtain ⟨hv, hb⟩ := config_validate_ok config fs b hok
  have hmempw : "apic_password" ∈ fs :=
    validate_list_mem config validateChecks fs hv "apic_password"
      ["aci_config", "apic_login", "password"] v (by simp [validateChecks]) hpw hfalsy
  refine ⟨hmempw, ?_, ?_, ?_⟩
  · rw [hb]
    cases fs with
    | nil => simp at hmempw
    | cons a l => rfl
  · intro name path w hm hw ht
    exact validate_list_mem config validateChecks fs hv name path w hm hw ht
  · intro l k rest hnone
    cases l with
    | nil => exact ⟨Value.vDict [], rfl, rfl⟩
    | cons kv tl =>
      refine ⟨Value.vNone, ?_, rfl⟩
      simp [walk, truthy, hnone, walk_vNone]

/-- C4 counterexample: the fabric admin password is missing (its walk
yields a falsy `None`), yet validation neither fails nor reports it —
another field (`node_config` being a truthy string) makes the walk raise,
so `config_validate` raises instead of returning, refuting "for every
tree ... independent of any other field's state". -/
theorem C4_counterexample :
    walk configStrNodeNoPass ["aci_config", "apic_login", "password"] = .ok Value.vNone
    ∧ truthy Value.vNone = false
    ∧ config_validate configStrNodeNoPass = .error () :=
  ⟨rfl, rfl, rfl⟩

/-- Witness for the amended C4: a concrete tree missing only the password
completes validation with exactly that name reported, and the theorem
yields its membership. -/
theorem C4_witness :
    config_validate (merged_config none none userConfigNoPass)
      = .ok (["apic_password"], false)
    ∧ "apic_password" ∈ ["apic_password"] :=
  ⟨rfl, (C4_validator_contract (merged_config none none userConfigNoPass)
    ["apic_password"] false rfl Value.vNone rfl rfl).1⟩

/-- C10 (amended): on every completed validation run the required-field
predicate is value-truthiness: an entry whose path resolves to a falsy
value (for example a VLAN id `0`) is reported as missing and fails the
run, and conversely a successful validation means every checked path
resolved to a truthy value — present but falsy does not pass.  (As with
C4, a run that raises on an unrelated truthy non-mapping intermediate
reports nothing, which the counterexample exhibits.) -/
theorem C10_validator_truthiness (config : Value) (fs : List String) (b : Bool)
    (hok : config_validate config = .ok (fs, b)) :
    (∀ name path v, (name, path) ∈ validateChecks → walk config path = .ok v →
        truthy v = false → name ∈ fs ∧ b = false)
    ∧ (b = true → ∀ name path v, (name, path) ∈ validateChecks →
        walk config path = .ok v → truthy v = true) := by
  obtain ⟨hv, hb⟩ := config_validate_ok config fs b hok
  constructor
  · intro name path v hm hw ht
    have hmem := validate_list_mem config validateChecks fs hv name path v hm hw ht
    refine ⟨hmem, ?_⟩
    rw [hb]
    cases fs with
    | nil => simp at hmem
    | cons a l => rfl
  · intro hbt name path v hm hw
    have hnil : fs = [] := by
      rw [hb] at hbt
      cases fs with
      | nil => rfl
      | cons a l => simp at hbt
    exact validate_list_nil_truthy config validateChecks (hnil ▸ hv) name path v hm hw

/-- C10 counterexample: the Kubernetes-API VLAN id is present and `0`
(falsy), yet validation reports nothing and returns no failure signal —
it raises on the unrelated truthy non-mapping `node_config` value. -/
theorem C10_counterexample :
    walk configStrNodeKube0 ["net_config", "kubeapi_vlan"] = .ok (Value.vInt 0)
    ∧ truthy (Value.vInt 0) = false
    ∧ config_validate configStrNodeKube0 = .error () :=
  ⟨rfl, rfl, rfl⟩

/-- Witness for the amended C10: a concrete tree with the VLAN id set to
`0` fails its completed validation run with exactly that entry reported. -/
theorem C10_witness :
    config_validate (merged_config none none userConfigKube0)
      = .ok (["kubeapi_vlan"], false)
    ∧ "kubeapi_vlan" ∈ ["kubeapi_vlan"] :=
  ⟨rfl, ((C10_validator_truthiness (merged_config none none userConfigKube0)
    ["kubeapi_vlan"] false rfl).1 "kubeapi_vlan" ["net_config", "kubeapi_vlan"]
    (Value.vInt 0) (by simp [validateChecks]) rfl rfl).1⟩

/-! ## Claims C3 and C6 — CIDR deriver -/

theorem and_two_pow_sub_one (x k : Nat) : x &&& (2 ^ k - 1) = x % 2 ^ k := by
  apply Nat.eq_of_testBit_eq
  intro i
  rw [Nat.testBit_and, Nat.testBit_two_pow_sub_one, Nat.testBit_mod_two_pow]
  cases x.testBit i <;> cases hd : decide (i < k) <;> simp

/-- Masking with the complement of the low `k` bits (inside a 32-bit
word) clears the remainder modulo `2 ^ k`. -/
theorem mask_and_eq (x k : Nat) (hk : k ≤ 32) (hx : x < 4294967296) :
    x &&& (4294967295 ^^^ (2 ^ k - 1)) = 2 ^ k * (x / 2 ^ k) := by
  have h32 : (4294967295 : Nat) = 2 ^ 32 - 1 := by norm_num
  apply Nat.eq_of_testBit_eq
  intro i
  rw [Nat.testBit_and, Nat.testBit_xor, h32, Nat.testBit_two_pow_sub_one,
    Nat.testBit_two_pow_sub_one,
    show 2 ^ k * (x / 2 ^ k) = (x / 2 ^ k) <<< k by rw [Nat.shiftLeft_eq]; ring,
    Nat.testBit_shiftLeft, show x / 2 ^ k = x >>> k from (Nat.shiftRight_eq_div_pow x k).symm,
    Nat.testBit_shiftRight]
  by_cases hik : i < k
  · have h1 : i < 32 := by omega
    have h2 : ¬ (i ≥ k) := by omega
    simp [hik, h1, h2]
  · by_cases hi32 : i < 32
    · have h1 : k + (i - k) = i := by omega
      have h2 : i ≥ k := by omega
      simp [hik, hi32, h1, h2]
    · have hxi : x.testBit i = false := by
        apply Nat.testBit_lt_two_pow
        calc x < 4294967296 := hx
          _ = 2 ^ 32 := by norm_num
          _ ≤ 2 ^ i := Nat.pow_le_pow_right (by norm_num) (by omega)
      have h1 : k + (i - k) = i := by omega
      simp [hik, hi32, h1, hxi]

/-- Setting the low `k` bits adds the full host range onto the cleared
base. -/
theorem or_two_pow_sub_one (x k : Nat) :
    x ||| (2 ^ k - 1) = 2 ^ k * (x / 2 ^ k) + (2 ^ k - 1) := by
  have hb : (2 ^ k - 1) < 2 ^ k := by
    have := Nat.pow_pos (show 0 < 2 by norm_num) (n := k)
    omega
  apply Nat.eq_of_testBit_eq
  intro i
  rw [Nat.testBit_or, Nat.testBit_mul_pow_two_add (x / 2 ^ k) hb i,
    Nat.testBit_two_pow_sub_one]
  by_cases hik : i < k
  · simp [hik, Nat.testBit_two_pow_sub_one]
  · rw [if_neg hik, show x / 2 ^ k = x >>> k from (Nat.shiftRight_eq_div_pow x k).symm,
      Nat.testBit_shiftRight]
    have hk2 : k + (i - k) = i := by omega
    simp [hik, hk2]

theorem ip2int_lt (l : List Char) (n : Nat) (h : ip2int l = some n) :
    n < 4294967296 := by
  unfold ip2int at h
  repeat' split at h
  any_goals exact Option.noConfusion h
  injection h with h2
  subst h2
  omega

/-- The numeric bounds behind the CIDR contract: writing `m` for the host
mask `2 ^ (32-n) - 1`, on any in-range address whose host bits are not
all ones, the increment does not overflow, the derived base is at most
the address, the address is at most the derived last-usable value, and
the last-usable value is strictly below the next network base. -/
theorem cidr_bounds (rtri n : Nat) (hn : n ≤ 30) (hr : rtri < 4294967296)
    (hbc : rtri &&& (2 ^ (32 - n) - 1) ≠ 2 ^ (32 - n) - 1) :
    rtri + 1 < 4294967296
    ∧ rtri &&& (4294967295 ^^^ (2 ^ (32 - n) - 1)) ≤ rtri
    ∧ rtri ≤ (rtri ||| (2 ^ (32 - n) - 1)) - 1
    ∧ (rtri ||| (2 ^ (32 - n) - 1)) - 1
        < (rtri &&& (4294967295 ^^^ (2 ^ (32 - n) - 1))) + 2 ^ (32 - n) := by
  have hk : 32 - n ≤ 32 := by omega
  have hkpos : 2 ≤ 32 - n := by omega
  have hsub := mask_and_eq rtri (32 - n) hk hr
  have hor := or_two_pow_sub_one rtri (32 - n)
  have hmod := and_two_pow_sub_one rtri (32 - n)
  have hpow : 0 < 2 ^ (32 - n) := Nat.pow_pos (by norm_num)
  rw [hmod] at hbc
  have hmodlt : rtri % 2 ^ (32 - n) < 2 ^ (32 - n) := Nat.mod_lt _ hpow
  have hdm := Nat.div_add_mod rtri (2 ^ (32 - n))
  have hov : rtri + 1 < 4294967296 := by
    by_contra hcon
    have hrt : rtri = 4294967295 := by omega
    have hsplit32 : 2 ^ (32 - n) * 2 ^ n = 4294967296 := by
      rw [← pow_add]
      have : 32 - n + n = 32 := by omega
      rw [this]
      norm_num
    have hpow2 : 0 < 2 ^ n := Nat.pow_pos (by norm_num)
    have hpred : 2 ^ (32 - n) * (2 ^ n - 1) = 2 ^ (32 - n) * 2 ^ n - 2 ^ (32 - n) := by
      have h := Nat.mul_pred (2 ^ (32 - n)) (2 ^ n)
      simpa using h
    have hle : 2 ^ (32 - n) ≤ 4294967296 := by
      rw [← hsplit32]
      exact Nat.le_mul_of_pos_right _ hpow2
    have hrw : rtri = 2 ^ (32 - n) * (2 ^ n - 1) + (2 ^ (32 - n) - 1) := by
      rw [hrt, hpred, hsplit32]
      omega
    have : rtri % 2 ^ (32 - n) = 2 ^ (32 - n) - 1 := by
      rw [hrw, Nat.mul_add_mod, Nat.mod_eq_of_lt (by omega)]
    exact hbc this
  obtain ⟨S, hS⟩ : ∃ S, 2 ^ (32 - n) * (rtri / 2 ^ (32 - n)) = S := ⟨_, rfl⟩
  rw [hS] at hsub hor hdm
  obtain ⟨A, hA⟩ : ∃ A, rtri &&& (4294967295 ^^^ (2 ^ (32 - n) - 1)) = A := ⟨_, rfl⟩
  obtain ⟨O, hO⟩ : ∃ O, rtri ||| (2 ^ (32 - n) - 1) = O := ⟨_, rfl⟩
  obtain ⟨B, hB⟩ : ∃ B, rtri % 2 ^ (32 - n) = B := ⟨_, rfl⟩
  rw [hA] at hsub ⊢
  rw [hO] at hor ⊢
  rw [hB] at hbc hmodlt hdm
  obtain ⟨P, hP⟩ : ∃ P, 2 ^ (32 - n) = P := ⟨_, rfl⟩
  rw [hP] at hor hbc hmodlt hpow ⊢
  refine ⟨hov, ?_, ?_, ?_⟩ <;> omega

/-- C3 (amended): for a CIDR string parsing as address `rtri` with prefix
length `n ≤ 30`, and whose host bits are not all ones (the counterexample
shows the all-ones case fails), the deriver returns the tuple whose first
usable address is `network + 1`, and on the parsed 32-bit values the
base is at most the network address, the network address is at most the
last usable address, and the last usable address is strictly below the
next network's base `base + 2^(32-n)`. -/
theorem C3_cidr_properties (cidr : String) (rtr mask : List Char) (n rtri : Nat)
    (hs : splitOnChar '/' cidr.data = [rtr, mask])
    (hm : parseNat mask = some n)
    (hn : n ≤ 30)
    (hip : ip2int rtr = some rtri)
    (hbc : rtri &&& (2 ^ (32 - n) - 1) ≠ 2 ^ (32 - n) - 1) :
    cidr_split cidr = some (String.mk (int2ip (rtri + 1)),
        String.mk (int2ip ((rtri ||| (2 ^ (32 - n) - 1)) - 1)),
        String.mk rtr,
        String.mk (int2ip (rtri &&& (4294967295 ^^^ (2 ^ (32 - n) - 1)))),
        String.mk mask)
    ∧ rtri &&& (4294967295 ^^^ (2 ^ (32 - n) - 1)) ≤ rtri
    ∧ rtri ≤ (rtri ||| (2 ^ (32 - n) - 1)) - 1
    ∧ (rtri ||| (2 ^ (32 - n) - 1)) - 1
        < (rtri &&& (4294967295 ^^^ (2 ^ (32 - n) - 1))) + 2 ^ (32 - n) := by
  have hr := ip2int_lt rtr rtri hip
  obtain ⟨hov, h2, h3, h4⟩ := cidr_bounds rtri n hn hr hbc
  refine ⟨?_, h2, h3, h4⟩
  simp only [cidr_split, hs, hm, hip]
  rw [if_pos (show n < 32 by omega), if_pos hov]

/-- Witness for the amended C3 at `"10.2.0.1/16"` (address integer
`167903233`). -/
theorem C3_witness :
    cidr_split "10.2.0.1/16" = some (String.mk (int2ip (167903233 + 1)),
        String.mk (int2ip ((167903233 ||| (2 ^ (32 - 16) - 1)) - 1)),
        String.mk "10.2.0.1".data,
        String.mk (int2ip (167903233 &&& (4294967295 ^^^ (2 ^ (32 - 16) - 1)))),
        String.mk "16".data)
    ∧ 167903233 &&& (4294967295 ^^^ (2 ^ (32 - 16) - 1)) ≤ 167903233
    ∧ 167903233 ≤ (167903233 ||| (2 ^ (32 - 16) - 1)) - 1
    ∧ (167903233 ||| (2 ^ (32 - 16) - 1)) - 1
        < (167903233 &&& (4294967295 ^^^ (2 ^ (32 - 16) - 1))) + 2 ^ (32 - 16) :=
  C3_cidr_properties "10.2.0.1/16" "10.2.0.1".data "16".data 16 167903233
    (by decide) (by decide) (by omega) (by decide) (by decide)

/-- C3 counterexample: `"10.0.0.255/24"` is a valid CIDR input with
`N = 24 ≤ 30`, yet the network address as given (`10.0.0.255`, integer
`167772415`) is strictly greater than the derived last usable address
(`10.0.0.254`, integer `167772414`), refuting
`base ≤ network_addr ≤ last_usable`. -/
theorem C3_counterexample :
    cidr_split "10.0.0.255/24"
      = some ("10.0.1.0", "10.0.0.254", "10.0.0.255", "10.0.0.0", "24")
    ∧ ip2int "10.0.0.255".data = some 167772415
    ∧ ip2int "10.0.0.254".data = some 167772414
    ∧ ¬(167772415 ≤ 167772414) :=
  ⟨rfl, rfl, rfl, by omega⟩

/-- C6 (amended): for a CIDR string parsing as address `rtri` with prefix
length `n < 32`, provided the first-usable computation does not overflow
32 bits (`rtri + 1 < 2^32`; the counterexample shows the deriver raises
otherwise), `cidr_split` returns exactly the 5-tuple prescribed by the
spec's algorithm, `cidr_formula`. -/
theorem C6_cidr_refines_formula (cidr : String) (rtr mask : List Char) (n rtri : Nat)
    (hs : splitOnChar '/' cidr.data = [rtr, mask])
    (hm : parseNat mask = some n)
    (hn : n < 32)
    (hip : ip2int rtr = some rtri)
    (hov : rtri + 1 < 4294967296) :
    cidr_split cidr = some (cidr_formula rtr mask rtri n) := by
  unfold cidr_formula
  simp only [cidr_split, hs, hm, hip]
  rw [if_pos hn, if_pos hov]

/-- Witness for the amended C6 at `"10.2.0.1/16"`. -/
theorem C6_witness :
    cidr_split "10.2.0.1/16"
      = some (cidr_formula "10.2.0.1".data "16".data 167903233 16) :=
  C6_cidr_refines_formula "10.2.0.1/16" "10.2.0.1".data "16".data 16 167903233
    (by decide) (by decide) (by omega) (by decide) (by omega)

/-- C6 counterexample: `"255.255.255.255/16"` is a well-formed CIDR
string (valid dotted-quad, `N = 16` in `[0, 32)`), but the deriver does
not return the formula's 5-tuple — `address + 1` exceeds 32 bits, so
`struct.pack` raises and the call produces no tuple at all. -/
theorem C6_counterexample :
    splitOnChar '/' ("255.255.255.255/16".data)
      = ["255.255.255.255".data, "16".data]
    ∧ parseNat "16".data = some 16
    ∧ ip2int "255.255.255.255".data = some 4294967295
    ∧ cidr_split "255.255.255.255/16" = none :=
  ⟨rfl, rfl, rfl, rfl⟩
